import Mathlib

/-
Verification development for the LogicPaper formatting core.

The Python source is shallowly embedded: Python strings become Lean String,
Python lists become List, Python numbers become Int / Rat, and the dynamic
value type flowing through the formatter becomes the inductive PVal below.
Calls into external libraries (babel, num2words, CPython strftime and
format-spec rendering) are represented by total abstract functions, clearly
marked; no claim below depends on their output.
-/

namespace LogicPaper

/-- Whitespace test used to model Python str.strip and str.split with no
separator argument. -/
def isSpace (c : Char) : Bool := c.isWhitespace

/-- Core of Python str.strip with no arguments, on character lists. -/
def stripChars (l : List Char) : List Char :=
  ((l.dropWhile isSpace).reverse.dropWhile isSpace).reverse

/-- Models Python str.strip with no arguments. -/
def pyStrip (s : String) : String := ⟨stripChars s.data⟩

/-- Models Python str.lower (ASCII; the directive grammar is ASCII). -/
def pyLower (s : String) : String := ⟨s.data.map Char.toLower⟩

/-- Models Python str.upper (ASCII). -/
def pyUpper (s : String) : String := ⟨s.data.map Char.toUpper⟩

/-- The double-quote character. -/
def dq : Char := Char.ofNat 34

/-- The single-quote character. -/
def sq : Char := Char.ofNat 39

/-- Models Python str.lstrip with a one-character argument, on lists. -/
def lstripChar (c : Char) (l : List Char) : List Char := l.dropWhile (· = c)

/-- Models Python str.strip with a one-character argument: removes every
copy of that character from both ends. -/
def stripCharBoth (c : Char) (l : List Char) : List Char :=
  ((l.dropWhile (· = c)).reverse.dropWhile (· = c)).reverse

/-- Core of Python str.replace for a one-character pattern: every
occurrence of the character old becomes the string new. -/
def pyReplaceChar (old : Char) (new : List Char) (l : List Char) : List Char :=
  (l.map fun c => if c = old then new else [c]).flatten

/-- Models Python str.replace for a one-character pattern. -/
def pyReplace1 (s : String) (old : Char) (new : String) : String :=
  ⟨pyReplaceChar old new.data s.data⟩

/-- Models Python str.split with a one-character separator on lists:
splits at every occurrence, keeping empty pieces, so that the split of the
empty list is a single empty piece. -/
def splitChar (c : Char) : List Char → List (List Char)
  | [] => [[]]
  | a :: rest =>
    if a = c then [] :: splitChar c rest
    else
      match splitChar c rest with
      | s :: ss => (a :: s) :: ss
      | [] => [[a]]

/-- Models Python str.split with a one-character separator. -/
def pySplit (sep : Char) (s : String) : List String :=
  (splitChar sep s.data).map (fun l => ⟨l⟩)

/-- Splits a list at the first occurrence of a character, when present:
models the pair produced by Python str.split(c, 1) when c occurs. -/
def splitFirstAt (c : Char) : List Char → Option (List Char × List Char)
  | [] => none
  | a :: rest =>
    if a = c then some ([], rest)
    else
      match splitFirstAt c rest with
      | some (x, y) => some (a :: x, y)
      | none => none

/-- Models Python str.isdigit for ASCII digit strings (true on nonempty
all-digit strings; exotic Unicode digit classes are not used by the data
this program feeds through it). -/
def pyIsDigitStr (s : String) : Bool := s.data ≠ [] && s.data.all Char.isDigit

/-- Models Python str.isalpha for ASCII strings. -/
def pyIsAlphaStr (s : String) : Bool := s.data ≠ [] && s.data.all Char.isAlpha

/-- Decimal value of a list of ASCII digit characters. -/
def digitsToNat (l : List Char) : ℕ :=
  l.foldl (fun acc c => acc * 10 + (c.toNat - 48)) 0

/-- Nonempty all-digit parse of a natural number. -/
def parseNatDigits (l : List Char) : Option ℕ :=
  if l ≠ [] ∧ l.all Char.isDigit then some (digitsToNat l) else none

/-- Models Python int(str): surrounding whitespace allowed, optional sign,
then decimal digits (digit-group underscores are not used by this program
and are not modeled). -/
def pyParseInt (s : String) : Option Int :=
  match stripChars s.data with
  | [] => none
  | c :: rest =>
    if c = '+' then (parseNatDigits rest).map (fun n => (n : Int))
    else if c = '-' then (parseNatDigits rest).map (fun n => -(n : Int))
    else (parseNatDigits (c :: rest)).map (fun n => (n : Int))

/-- Exact rational as an unreduced numerator-denominator pair, embedding
the Python binary floats this program computes with: every float the
claims exercise is an exactly representable decimal, so exact rational
arithmetic is faithful. The pair is kept unreduced so that every
operation is plain integer arithmetic, with a positive denominator by
construction. -/
structure PRat where
  num : Int
  den : Nat
deriving DecidableEq, Repr

namespace PRat

/-- The integer q as an exact rational. -/
def ofInt (n : Int) : PRat := ⟨n, 1⟩

/-- Negation. -/
def neg (q : PRat) : PRat := ⟨-q.num, q.den⟩

/-- Multiplication by a power of ten. -/
def mulPow10 (q : PRat) (k : ℕ) : PRat := ⟨q.num * (10 : ℤ) ^ k, q.den⟩

/-- Division by a positive natural. -/
def divNat (q : PRat) (n : ℕ) : PRat := ⟨q.num, q.den * n⟩

/-- Strict negativity. -/
def isNeg (q : PRat) : Bool := q.num < 0

/-- Floor to an integer (denominator positive). -/
def floor (q : PRat) : Int := Int.fdiv q.num (q.den : Int)

/-- Whether the magnitude is at least the given natural. -/
def absGe (q : PRat) (n : ℕ) : Bool := (n : Int) * (q.den : Int) ≤ (q.num.natAbs : Int)

end PRat

/-- Unsigned decimal-literal parse: digits with at most one point, at
least one digit in total, as an exact rational. -/
def parseDecCore (l : List Char) : Option PRat :=
  match splitChar '.' l with
  | [ip] =>
    if ip ≠ [] ∧ ip.all Char.isDigit then some (PRat.ofInt (digitsToNat ip)) else none
  | [ip, fp] =>
    if (ip ≠ [] ∨ fp ≠ []) ∧ ip.all Char.isDigit ∧ fp.all Char.isDigit then
      some ⟨(digitsToNat (ip ++ fp) : Int), 10 ^ fp.length⟩
    else none
  | _ => none

/-- Models Python float(str) for plain decimal literals (optional sign,
digits, optional decimal point), the only shapes this program feeds it;
exponent, infinity and nan forms are not modeled. The values the claims
exercise are exactly representable, so the binary float is exact and the
rational model is faithful. -/
def pyParseFloat (s : String) : Option PRat :=
  match stripChars s.data with
  | [] => none
  | c :: rest =>
    if c = '+' then parseDecCore rest
    else if c = '-' then (parseDecCore rest).map PRat.neg
    else parseDecCore (c :: rest)

/-- Models Python int(float): truncation toward zero. -/
def pyIntTrunc (q : PRat) : Int := q.num / (q.den : Int)

/-- Round to the nearest integer, ties to even: the rounding used by the
fixed-point format specifier in CPython (exact on the dyadic values the
claims exercise). -/
def roundHalfEven (q : PRat) : Int :=
  let f := q.floor
  let r := q.num - f * (q.den : Int)
  if 2 * r < (q.den : Int) then f
  else if 2 * r > (q.den : Int) then f + 1
  else if f % 2 = 0 then f else f + 1

/-- Left-pads a string with zeros to the given length. -/
def padZeros (s : String) (n : ℕ) : String :=
  ⟨List.replicate (n - s.length) '0'⟩ ++ s

/-- Models the Python fixed-point format f-string with the given precision
applied to an exact rational value. -/
def formatFixed (q : PRat) (prec : ℕ) : String :=
  let n := roundHalfEven (q.mulPow10 prec)
  let sign := if n < 0 ∨ (n = 0 ∧ q.isNeg) then "-" else ""
  let m := n.natAbs
  if prec = 0 then sign ++ toString m
  else sign ++ toString (m / 10 ^ prec) ++ "." ++ padZeros (toString (m % 10 ^ prec)) prec

/-- Fueled extraction of the multiplicity of a prime in a natural number:
returns the exponent and the residual cofactor. -/
def multiplicityFuel (p : ℕ) : ℕ → ℕ → ℕ × ℕ
  | 0, n => (0, n)
  | fuel + 1, n =>
    if 2 ≤ p ∧ 0 < n ∧ n % p = 0 then
      let r := multiplicityFuel p fuel (n / p)
      (r.1 + 1, r.2)
    else (0, n)

/-- Models the Python repr of a float for values whose denominator divides
a power of ten (the only float reprs this program can surface from the
data the claims exercise): the exact decimal expansion with no trailing
zeros and at least one fractional digit. Other rationals get a tagged
fallback spelling; no claim depends on it. -/
def floatRepr (q : PRat) : String :=
  let r2 := multiplicityFuel 2 q.den q.den
  let r5 := multiplicityFuel 5 r2.2 r2.2
  if r5.2 = 1 then
    let k := max r2.1 r5.1
    let n := q.num * (10 : ℤ) ^ k / (q.den : ℤ)
    let sign := if n < 0 then "-" else ""
    let m := n.natAbs
    if k = 0 then sign ++ toString m ++ ".0"
    else
      let fracDigits := padZeros (toString (m % 10 ^ k)) k
      let trimmed : String := ⟨(fracDigits.data.reverse.dropWhile (· = '0')).reverse⟩
      let fracPart := if trimmed = "" then "0" else trimmed
      sign ++ toString (m / 10 ^ k) ++ "." ++ fracPart
  else "approx:" ++ toString q.num ++ "/" ++ toString q.den

/-- Proleptic-Gregorian datetime, embedding Python datetime.datetime
(microseconds are never nonzero in the flows the claims exercise and are
omitted). -/
structure PyDateTime where
  year : Int
  month : Nat
  day : Nat
  hour : Nat
  minute : Nat
  second : Nat
deriving DecidableEq, Repr

/-- Two-digit zero-padded rendering. -/
def two (n : ℕ) : String := padZeros (toString n) 2

/-- The date-only ISO rendering used by Python date.isoformat(). -/
def dateIso (d : PyDateTime) : String :=
  padZeros (toString d.year.natAbs) 4 ++ "-" ++ two d.month ++ "-" ++ two d.day

/-- The time-of-day rendering HH:MM:SS. -/
def timeIso (d : PyDateTime) : String :=
  two d.hour ++ ":" ++ two d.minute ++ ":" ++ two d.second

/-- Models Python str(datetime): date, space, time. -/
def pyStrDateTime (d : PyDateTime) : String := dateIso d ++ " " ++ timeIso d

/-- Models Python datetime.isoformat(): date, letter T, time. -/
def isoDateTime (d : PyDateTime) : String := dateIso d ++ "T" ++ timeIso d

/-- Leap-year test of the Gregorian calendar, as datetime implements it. -/
def isLeap (y : Int) : Bool := y % 4 = 0 && (y % 100 ≠ 0 || y % 400 = 0)

/-- Number of days in a month of a given year. -/
def daysInMonth (y : Int) (m : ℕ) : ℕ :=
  if m = 2 then (if isLeap y then 29 else 28)
  else if m = 4 ∨ m = 6 ∨ m = 9 ∨ m = 11 then 30
  else 31

/-- Days since 1970-01-01 of a proleptic-Gregorian civil date (the
standard era-based conversion; exact for all dates datetime supports). -/
def daysFromCivil (y : Int) (m d : ℕ) : Int :=
  let y2 : Int := if m ≤ 2 then y - 1 else y
  let era : Int := (if 0 ≤ y2 then y2 else y2 - 399) / 400
  let yoe : Int := y2 - era * 400
  let mp : Int := ((m : Int) + 9) % 12
  let doy : Int := (153 * mp + 2) / 5 + (d : Int) - 1
  let doe : Int := yoe * 365 + yoe / 4 - yoe / 100 + doy
  era * 146097 + doe - 719468

/-- Civil date of a count of days since 1970-01-01 (inverse of
daysFromCivil). -/
def civilFromDays (z0 : Int) : Int × ℕ × ℕ :=
  let z := z0 + 719468
  let era : Int := (if 0 ≤ z then z else z - 146096) / 146097
  let doe : Int := z - era * 146097
  let yoe : Int := (doe - doe / 1460 + doe / 36524 - doe / 146096) / 365
  let y : Int := yoe + era * 400
  let doy : Int := doe - (365 * yoe + yoe / 4 - yoe / 100)
  let mp : Int := (5 * doy + 2) / 153
  let d : Int := doy - (153 * mp + 2) / 5 + 1
  let m : Int := if mp < 10 then mp + 3 else mp - 9
  (y + (if m ≤ 2 then 1 else 0), m.toNat, d.toNat)

/-- Models adding a timedelta of whole days to a datetime (the time of day
is preserved, as in Python). -/
def addDays (dt : PyDateTime) (n : Int) : PyDateTime :=
  let c := civilFromDays (daysFromCivil dt.year dt.month dt.day + n)
  { dt with year := c.1, month := c.2.1, day := c.2.2 }

/-- Dynamic value type flowing through the formatter, embedding the Python
values this program passes around: None, bool, int, float, str, datetime
and the image-descriptor dicts (parsed dimensions from the image
strategy, raw token dimensions from the formatter image branch). -/
inductive PVal where
  | vnone
  | vbool (b : Bool)
  | vint (n : Int)
  | vfloat (q : PRat)
  | vstr (s : String)
  | vdate (d : PyDateTime)
  | vimage (filename : String) (width : Option PRat) (height : Option PRat)
  | vimageRaw (filename : String) (width : Option String) (height : Option String)
deriving DecidableEq

/-- Models Python str() on the embedded values. The str() of the image
dict is abstracted to a tagged rendering; no claim depends on it. -/
def pyStr : PVal → String
  | .vnone => "None"
  | .vbool b => if b then "True" else "False"
  | .vint n => toString n
  | .vfloat q => floatRepr q
  | .vstr s => s
  | .vdate d => pyStrDateTime d
  | .vimage f _ _ => "image-dict:" ++ f
  | .vimageRaw f _ _ => "image-dict:" ++ f

/-- Models Python truthiness of the embedded values. -/
def pyTruthy : PVal → Bool
  | .vnone => false
  | .vbool b => b
  | .vint n => n ≠ 0
  | .vfloat q => q.num ≠ 0
  | .vstr s => s ≠ ""
  | .vdate _ => true
  | .vimage _ _ _ => true
  | .vimageRaw _ _ _ => true

/-- Removes every single and double quote, modeling the chained
str.replace calls the strategies use to unwrap spreadsheet quoting. -/
def removeQuotes (s : String) : String :=
  pyReplace1 (pyReplace1 s dq "") sq ""

namespace LogicStrategy

/-- Final resolution of the logic scan, from the tail of
LogicStrategy.process in logic_std.py: a remembered fallback is returned
only when the input value was not empty, else the original value passes
through. -/
def finalResolve (isEmpty : Bool) (fallback : Option String) (orig : PVal) : PVal :=
  match fallback with
  | some f => if isEmpty then orig else .vstr f
  | none => orig

/-- Token scan of LogicStrategy.process (logic_std.py, lines 42-92):
keyword handling for default and empty_if with argument consumption,
first-equals key=output mapping, and standalone tokens remembered as the
else candidate. -/
def loop (strVal : String) (isEmpty : Bool) :
    List String → Option String → PVal → PVal
  | [], fb, orig => finalResolve isEmpty fb orig
  | op :: rest, fb, orig =>
    let opKey := pyStrip (pyLower op)
    if opKey = "default" then
      match rest with
      | arg :: rest2 =>
        let fallbackArg := removeQuotes arg
        if isEmpty then .vstr fallbackArg
        else loop strVal isEmpty rest2 (some fallbackArg) orig
      | [] => finalResolve isEmpty fb orig
    else if opKey = "empty_if" then
      match rest with
      | target :: rest2 =>
        if strVal = target then .vstr ""
        else loop strVal isEmpty rest2 fb orig
      | [] => finalResolve isEmpty fb orig
    else
      match splitFirstAt '=' op.data with
      | some (key, output) =>
        if strVal = pyStrip ⟨key⟩ then .vstr (pyStrip ⟨output⟩)
        else loop strVal isEmpty rest fb orig
      | none => loop strVal isEmpty rest (some op) orig

/-- Embedding of LogicStrategy.process (logic_std.py): emptiness and the
normalized comparison string are computed up front, then the token scan
runs with no remembered fallback. -/
def process (value : PVal) (ops : List String) : PVal :=
  let isEmpty : Bool := value == PVal.vnone || pyStrip (pyStr value) == ""
  let strVal : String := if value == PVal.vnone then "" else pyStrip (pyStr value)
  loop strVal isEmpty ops none value

end LogicStrategy

/-- Models Python str.capitalize (ASCII). -/
def pyCapitalize (s : String) : String :=
  match s.data with
  | [] => ""
  | c :: rest => ⟨c.toUpper :: rest.map Char.toLower⟩

/-- Models Python str.swapcase (ASCII). -/
def pySwapcase (s : String) : String :=
  ⟨s.data.map fun c => if c.isUpper then c.toLower else if c.isLower then c.toUpper else c⟩

/-- Core of Python str.title: an alphabetic character is upper-cased when
the previous character was not alphabetic, lower-cased otherwise. -/
def titleCore : Bool → List Char → List Char
  | _, [] => []
  | prevAlpha, c :: rest =>
    let c2 := if c.isAlpha then (if prevAlpha then c.toLower else c.toUpper) else c
    c2 :: titleCore c.isAlpha rest

/-- Models Python str.title (ASCII). -/
def pyTitle (s : String) : String := ⟨titleCore false s.data⟩

/-- Splits a list at every character satisfying the predicate, keeping
empty pieces; with a whitespace predicate and an empty-piece filter this
models Python str.split() with no arguments. -/
def splitAtPred (p : Char → Bool) : List Char → List (List Char)
  | [] => [[]]
  | a :: rest =>
    if p a then [] :: splitAtPred p rest
    else
      match splitAtPred p rest with
      | s :: ss => (a :: s) :: ss
      | [] => [[a]]

/-- Models Python str.split() with no arguments: whitespace runs separate
the words, empty pieces are dropped. -/
def pySplitWs (s : String) : List String :=
  ((splitAtPred isSpace s.data).filter (· ≠ [])).map (fun l => (⟨l⟩ : String))

/-- Replaces each maximal run of characters satisfying the predicate by a
single copy of the given character: models the run-collapsing re.sub calls
of the string strategy. -/
def collapseRuns (p : Char → Bool) (rep : Char) : List Char → List Char
  | [] => []
  | c :: rest =>
    if p c then rep :: collapseRuns p rep (rest.dropWhile p)
    else c :: collapseRuns p rep rest
termination_by l => l.length
decreasing_by
  · simp only [List.length_cons]
    exact Nat.lt_succ_of_le ((List.dropWhile_sublist (l := rest) (p := p))).length_le
  · simp

/-- Models a Python slice text[:limit] with a possibly negative int limit. -/
def pySliceTo (s : String) (n : Int) : String :=
  if 0 ≤ n then ⟨s.data.take n.toNat⟩
  else ⟨s.data.take (s.length - (-n).toNat)⟩

namespace BooleanStrategy

/-- Truthy token set of BooleanStrategy (boolean_std.py, line 28). -/
def truthyTokens : List String := ["true", "t", "yes", "y", "1", "s", "sim", "on"]

/-- Input normalization of BooleanStrategy.process (boolean_std.py,
lines 20-28): bool passes through, an int is true exactly on 1, a string
is true when its stripped lower-case form is a truthy token, and every
other value is false. The bool case is tested before the int case, as the
isinstance chain does. -/
def normalize : PVal → Bool
  | .vbool b => b
  | .vint n => n == 1
  | .vstr s => truthyTokens.contains (pyLower (pyStrip s))
  | _ => false

/-- Operation scan of BooleanStrategy.process (boolean_std.py, lines
30-61). The bool keyword takes the next two tokens as labels; when the
second next() raises StopIteration (fewer than two tokens follow) the
handler returns the plain string form of the boolean. -/
def loop (boolVal : Bool) : List String → String
  | [] => pyStr (.vbool boolVal)
  | op :: rest =>
    let opKey := pyStrip (pyLower op)
    if opKey = "bool" then
      match rest with
      | a :: b :: _ => if boolVal then a else b
      | _ => pyStr (.vbool boolVal)
    else if opKey = "check" then
      if boolVal then "☑" else "☐"
    else loop boolVal rest

/-- Embedding of BooleanStrategy.process (boolean_std.py). -/
def process (value : PVal) (ops : List String) : String :=
  loop (normalize value) ops

end BooleanStrategy

namespace MaskStrategy

/-- Pattern walk of MaskStrategy._apply_generic_mask: a hash consumes one
cleaned character, other pattern characters are copied, and the walk stops
early when the value is exhausted. -/
def genericMaskCore : List Char → List Char → List Char
  | _, [] => []
  | clean, p :: ps =>
    if p = '#' then
      match clean with
      | c :: cs => c :: genericMaskCore cs ps
      | [] => []
    else p :: genericMaskCore clean ps

/-- Embedding of MaskStrategy._apply_generic_mask (mask_std.py). -/
def applyGenericMask (value pattern : String) : String :=
  ⟨genericMaskCore (value.data.filter Char.isAlphanum) pattern.data⟩

/-- Embedding of MaskStrategy._mask_email (mask_std.py). -/
def maskEmail (email : String) : String :=
  match splitFirstAt '@' email.data with
  | none => email
  | some (user, domain) =>
    let maskedUser : String :=
      match user with
      | u0 :: _ :: _ => ⟨[u0, '*', '*', '*']⟩
      | _ => ⟨user⟩
    maskedUser ++ "@" ++ (⟨domain⟩ : String)

/-- Embedding of MaskStrategy._mask_credit_card (mask_std.py, lines
95-101): strip non-digits; fewer than four digits pass through unchanged;
otherwise the fixed prefix plus the last four digits. -/
def maskCreditCard (cc : String) : String :=
  let clean := cc.data.filter Char.isDigit
  if clean.length < 4 then cc
  else "**** **** **** " ++ (⟨clean.drop (clean.length - 4)⟩ : String)

/-- Embedding of MaskStrategy._mask_name (mask_std.py). -/
def maskName (name : String) : String :=
  let maskWord : String → String := fun w =>
    match w.data with
    | c :: _ :: _ => ⟨c :: List.replicate (w.length - 1) '*'⟩
    | _ => w
  " ".intercalate ((pySplitWs name).map maskWord)

/-- Operation scan of MaskStrategy.process (mask_std.py, lines 29-57). -/
def loop : String → List String → String
  | text, [] => text
  | text, op :: rest =>
    let opKey := pyStrip (pyLower op)
    if opKey = "mask" then
      match rest with
      | pat :: rest2 => loop (applyGenericMask text pat) rest2
      | [] => text
    else if opKey = "email" then loop (maskEmail text) rest
    else if opKey = "credit_card" then loop (maskCreditCard text) rest
    else if opKey = "name" then loop (maskName text) rest
    else loop text rest

/-- Embedding of MaskStrategy.process (mask_std.py). -/
def process (value : PVal) (ops : List String) : String :=
  if value == PVal.vnone then "" else loop (pyStr value) ops

end MaskStrategy

namespace StringStrategy

/-- Character class kept by the slug operation: letters, digits,
whitespace and hyphen. -/
def slugKeep (c : Char) : Bool := c.isAlphanum || isSpace c || c = '-'

/-- Operation scan of StringStrategy.process (string_std.py): case
operations rewrite the running text; the argument-taking operations
consume the next token; unknown tokens are ignored. -/
def loop : String → List String → String
  | text, [] => text
  | text, op0 :: rest =>
    let op := pyStrip (pyLower op0)
    if op = "upper" then loop (pyUpper text) rest
    else if op = "lower" then loop (pyLower text) rest
    else if op = "title" then loop (pyTitle text) rest
    else if op = "capitalize" then loop (pyCapitalize text) rest
    else if op = "swapcase" then loop (pySwapcase text) rest
    else if op = "trim" then loop (pyStrip text) rest
    else if op = "reverse" then loop ⟨text.data.reverse⟩ rest
    else if op = "prefix" then
      match rest with
      | v :: rest2 => loop (pyReplace1 v dq "" ++ text) rest2
      | [] => text
    else if op = "suffix" then
      match rest with
      | v :: rest2 => loop (text ++ pyReplace1 v dq "") rest2
      | [] => text
    else if op = "truncate" then
      match rest with
      | v :: rest2 =>
        match pyParseInt v with
        | some limit =>
          loop (if (text.length : Int) > limit then pySliceTo text limit ++ "..." else text) rest2
        | none => loop text rest2
      | [] => text
    else if op = "snake" then
      loop (pyLower ⟨collapseRuns (fun c => isSpace c || c = '-') '_' text.data⟩) rest
    else if op = "kebab" then
      loop (pyLower ⟨collapseRuns (fun c => isSpace c || c = '_') '-' text.data⟩) rest
    else if op = "slug" then
      loop ⟨collapseRuns isSpace '-' (pyLower ⟨text.data.filter slugKeep⟩).data⟩ rest
    else loop text rest

/-- Embedding of StringStrategy.process (string_std.py). -/
def process (value : PVal) (ops : List String) : String :=
  if value == PVal.vnone then "" else loop (pyStr value) ops

end StringStrategy

namespace ImageStrategy

/-- Dimension token handling of ImageStrategy.process (image_std.py):
strip; the empty token or the word auto leaves the dimension unset;
otherwise parse as float, an unparsable token leaving it unset. -/
def parseDim (tok : String) : Option PRat :=
  let raw := pyStrip tok
  if raw = "" ∨ pyLower raw = "auto" then none
  else pyParseFloat raw

/-- Embedding of ImageStrategy.process (image_std.py): builds the image
descriptor from the stringified value (empty for falsy values) and the
first two operation tokens. -/
def process (value : PVal) (ops : List String) : PVal :=
  let filename := if pyTruthy value then pyStr value else ""
  PVal.vimage filename
    (match ops.head? with | some t => parseDim t | none => none)
    (match ops[1]? with | some t => parseDim t | none => none)

end ImageStrategy

/-- Inserts a separator before every third character of a reversed digit
list, counting from the given position: helper for the comma-grouped
integer format. -/
def groupRev (sep : Char) : List Char → ℕ → List Char
  | [], _ => []
  | c :: rest, k =>
    if k ≠ 0 ∧ k % 3 = 0 then sep :: c :: groupRev sep rest (k + 1)
    else c :: groupRev sep rest (k + 1)

/-- Models the Python thousands-grouping integer format spec applied to an
int: digits grouped in threes by commas. -/
def pyCommaGroup (n : Int) : String :=
  (if n < 0 then "-" else "") ++ (⟨(groupRev ',' (toString n.natAbs).data.reverse 0).reverse⟩ : String)

namespace NumberStrategy

/-- Separator heuristic block of NumberStrategy._normalize_to_float
(number_std.py, lines 211-225), on the character list of the stripped
input: a lone comma becomes the decimal point; when both comma and point
occur, the one occurring first is removed and the comma (when it is the
survivor) becomes the point. -/
def normalizeSeparators (l : List Char) : List Char :=
  if (',' ∈ l) ∧ ('.' ∉ l) then pyReplaceChar ',' ['.'] l
  else if (',' ∈ l) ∧ ('.' ∈ l) then
    if l.indexOf ',' < l.indexOf '.' then pyReplaceChar ',' [] l
    else pyReplaceChar ',' ['.'] (pyReplaceChar '.' [] l)
  else l

/-- Embedding of NumberStrategy._normalize_to_float (number_std.py):
numeric values convert directly (a Python bool being an int); other
values are stringified, stripped, separator-normalized and parsed, the
none result standing for the ValueError path. -/
def normalizeToFloat (value : PVal) : Option PRat :=
  match value with
  | .vint n => some (PRat.ofInt n)
  | .vfloat q => some q
  | .vbool b => some (PRat.ofInt (if b then 1 else 0))
  | _ =>
    let sv := stripChars (pyStr value).data
    pyParseFloat ⟨normalizeSeparators sv⟩

/-- Running result of the number pipeline: still the numeric value, or an
already formatted string. -/
inductive FRes where
  | num (q : PRat)
  | txt (s : String)
deriving DecidableEq

/-- Models the external babel.numbers.format_currency call; locale
rendering is outside the embedded core and no claim depends on this
rendering. -/
def babelCurrency (q : PRat) (code locale : String) : String :=
  code ++ " " ++ formatFixed q 2 ++ " [" ++ locale ++ "]"

/-- Models the external babel.numbers.format_percent call; abstract, no
claim depends on it. -/
def babelPercent (q : PRat) (locale : String) : String :=
  "percent[" ++ locale ++ "]:" ++ floatRepr q

/-- Models the external babel.numbers.format_scientific call; abstract,
no claim depends on it. -/
def babelScientific (q : PRat) (locale : String) : String :=
  "scientific[" ++ locale ++ "]:" ++ floatRepr q

/-- Models the external num2words call in ordinal mode; abstract, no
claim depends on it. -/
def numWordsOrdinal (q : PRat) (lang : String) : String :=
  "ordinal[" ++ lang ++ "]:" ++ floatRepr q

/-- Models the external num2words call in cardinal mode; abstract, no
claim depends on it. -/
def numWords (q : PRat) (lang : String) : String :=
  "words[" ++ lang ++ "]:" ++ floatRepr q

/-- Models the Python format(value, spec) builtin for the format specs the
int and fmt operations forward; abstract, no claim depends on it. -/
def pyFormatSpec (base spec : String) : String :=
  "spec[" ++ spec ++ "]:" ++ base

/-- Embedding of NumberStrategy._is_format_spec (number_std.py, lines
229-236). -/
def isFormatSpec (tok : String) : Bool :=
  match tok.data with
  | [] => false
  | c :: _ => c.isDigit || c = '.' || tok = ">" || tok = "<" || tok = "^"

/-- Scaling loop of NumberStrategy._humanize_number: divide by 1000 while
the magnitude stays at least 1000 and labels remain (at most four steps,
given fuel five). The Python loop divides binary floats; the embedding
divides exact rationals. -/
def humanizeCore : ℕ → PRat → ℕ → PRat × ℕ
  | 0, v, i => (v, i)
  | fuel + 1, v, i =>
    if v.absGe 1000 && decide (i < 4) then humanizeCore fuel (v.divNat 1000) (i + 1)
    else (v, i)

/-- Embedding of NumberStrategy._humanize_number (number_std.py). -/
def humanizeNumber (q : PRat) : String :=
  let labels : List String := ["", "K", "M", "B", "T"]
  let r := humanizeCore 5 q 0
  let res0 := formatFixed r.1 1
  let res := if res0.data.reverse.take 2 = ['0', '.'] then (⟨res0.data.dropLast.dropLast⟩ : String) else res0
  res ++ labels.getD r.2 ""

/-- One iteration of the NumberStrategy.process pipeline (number_std.py,
lines 65-193): given the running result, the constant numeric value, the
current operation token and the lookahead token, produces the new running
result and whether the lookahead token was consumed as an argument. -/
def step (locale : String) (numVal : PRat) (fr : FRes) (op0 : String)
    (next? : Option String) : FRes × Bool :=
  let op := pyStrip (pyLower op0)
  if op = "int" then
    let iv := pyIntTrunc numVal
    match next? with
    | some t =>
      if (t != "") && isFormatSpec t then (.txt (pyFormatSpec (toString iv) t), true)
      else (.txt (toString iv), false)
    | none => (.txt (toString iv), false)
  else if op = "fmt" ∨ op = "pad" then
    match next? with
    | some t => if t != "" then (.txt (pyFormatSpec (floatRepr numVal) t), true) else (fr, false)
    | none => (fr, false)
  else if op = "float" then
    match next? with
    | some t =>
      if (t != "") && pyIsDigitStr t then (.txt (formatFixed numVal (digitsToNat t.data)), true)
      else (.num numVal, false)
    | none => (.num numVal, false)
  else if op = "round" ∨ op = "precision" then
    match next? with
    | some t =>
      if (t != "") && pyIsDigitStr t then (.txt (formatFixed numVal (digitsToNat t.data)), true)
      else (fr, false)
    | none => (fr, false)
  else if op = "currency" then
    match next? with
    | some t =>
      if (t != "") && (t.length == 3) && pyIsAlphaStr t then
        (.txt (babelCurrency numVal (pyUpper t) locale), true)
      else (.txt (babelCurrency numVal "BRL" locale), false)
    | none => (.txt (babelCurrency numVal "BRL" locale), false)
  else if op = "percent" then (.txt (babelPercent numVal locale), false)
  else if op = "scientific" then (.txt (babelScientific numVal locale), false)
  else if op = "humanize" then (.txt (humanizeNumber numVal), false)
  else if op = "ordinal" then (.txt (numWordsOrdinal numVal locale), false)
  else if op = "spell_out" then
    match next? with
    | some t =>
      if (t != "") && (t.length == 2) then (.txt (numWords numVal t), true)
      else (.txt (numWords numVal locale), false)
    | none => (.txt (numWords numVal locale), false)
  else if op = "separator" then
    match next? with
    | some t =>
      if t != "" then
        let valStr := formatFixed numVal 2
        if t = ".," then
          match splitChar '.' valStr.data with
          | [ip, fp] =>
            match pyParseInt ⟨ip⟩ with
            | some n => (.txt (pyReplace1 (pyCommaGroup n) ',' "." ++ "," ++ (⟨fp⟩ : String)), true)
            | none => (fr, true)
          | _ => (fr, true)
        else if t = ",." then
          match splitChar '.' valStr.data with
          | [ip, fp] =>
            match pyParseInt ⟨ip⟩ with
            | some n => (.txt (pyCommaGroup n ++ "." ++ (⟨fp⟩ : String)), true)
            | none => (fr, true)
          | _ => (fr, true)
        else (fr, true)
      else (fr, false)
    | none => (fr, false)
  else (fr, false)

/-- Index loop of NumberStrategy.process: each iteration advances one
token, plus one more when the step consumed its lookahead argument. -/
def pipeline (locale : String) (numVal : PRat) : FRes → List String → FRes
  | fr, [] => fr
  | fr, op :: rest =>
    let r := step locale numVal fr op rest.head?
    if r.2 then
      match rest with
      | _ :: rest2 => pipeline locale numVal r.1 rest2
      | [] => r.1
    else pipeline locale numVal r.1 rest

/-- Embedding of NumberStrategy.process (number_std.py) at a given
locale: empty input yields the empty string, an unparsable input yields
its stringification, and otherwise the pipeline result is stringified. -/
def processLoc (locale : String) (value : PVal) (ops : List String) : String :=
  if value == PVal.vnone || pyStrip (pyStr value) == "" then ""
  else
    match normalizeToFloat value with
    | none => pyStr value
    | some numVal =>
      match pipeline locale numVal (.num numVal) ops with
      | .num q => floatRepr q
      | .txt s => s

/-- NumberStrategy.process at the default construction locale pt_BR. -/
def process (value : PVal) (ops : List String) : String :=
  processLoc "pt_BR" value ops

end NumberStrategy

namespace DateStrategy

/-- Running result of the date pipeline: still a datetime, or an already
formatted string. -/
inductive DRes where
  | dt (d : PyDateTime)
  | txt (s : String)
deriving DecidableEq

/-- Models the external babel.dates.format_date call; abstract, no claim
depends on it. -/
def babelDate (d : PyDateTime) (fmt locale : String) : String :=
  fmt ++ "[" ++ locale ++ "]:" ++ dateIso d

/-- Models the external CPython strftime call; abstract, no claim depends
on it. -/
def pyStrftime (d : PyDateTime) (pattern : String) : String :=
  "strftime[" ++ pattern ++ "]:" ++ isoDateTime d

/-- Models the external babel month-name rendering; abstract, no claim
depends on it. -/
def babelMonthName (d : PyDateTime) (locale : String) : String :=
  "month[" ++ locale ++ "]:" ++ two d.month

/-- Models datetime.fromisoformat on the plain YYYY-MM-DD date-literal
shape (after the Z to +00:00 replacement the source applies first); the
other ISO shapes are not exercised by the claims, and parse to none,
which the embedding treats like the ValueError path. -/
def parseIsoDate (s : String) : Option PyDateTime :=
  match splitChar '-' s.data with
  | [y, m, d] =>
    match parseNatDigits y, parseNatDigits m, parseNatDigits d with
    | some yn, some mn, some dn =>
      if y.length = 4 ∧ m.length = 2 ∧ d.length = 2 ∧ 1 ≤ mn ∧ mn ≤ 12 ∧
          1 ≤ dn ∧ dn ≤ daysInMonth (yn : Int) mn then
        some ⟨(yn : Int), mn, dn, 0, 0, 0⟩
      else none
    | _, _, _ => none
  | _ => none

/-- One iteration of the DateStrategy.process pipeline (date_std.py,
lines 65-171): produces the new running result, whether the lookahead
token was consumed, and whether a formatting operation was applied. -/
def step (fr : DRes) (op0 : String) (next? : Option String) :
    DRes × Bool × Bool :=
  let op := pyStrip (pyLower op0)
  if op = "iso" then
    match fr with
    | .dt d => (.txt (dateIso d), false, true)
    | _ => (fr, false, false)
  else if op = "short" ∨ op = "medium" ∨ op = "long" ∨ op = "full" then
    match fr, next? with
    | .dt d, some t =>
      if t != "" then (.txt (babelDate d op (pyStrip (removeQuotes t))), true, true)
      else (fr, false, false)
    | _, _ => (fr, false, false)
  else if op = "fmt" then
    match fr, next? with
    | .dt d, some t =>
      if t != "" then (.txt (pyStrftime d (removeQuotes t)), true, true)
      else (fr, false, false)
    | _, _ => (fr, false, false)
  else if op = "year" then
    match fr with
    | .dt d => (.txt (toString d.year), false, true)
    | _ => (fr, false, false)
  else if op = "month_name" then
    match fr, next? with
    | .dt d, some t =>
      if t != "" then (.txt (pyTitle (babelMonthName d (pyStrip (removeQuotes t)))), true, true)
      else (fr, false, false)
    | _, _ => (fr, false, false)
  else if op = "add_days" then
    match fr, next? with
    | .dt d, some t =>
      match pyParseInt t with
      | some n => if t != "" then (.dt (addDays d n), true, false) else (fr, false, false)
      | none => (fr, false, false)
    | _, _ => (fr, false, false)
  else if op = "add_years" then
    match fr, next? with
    | .dt d, some t =>
      match pyParseInt t with
      | some years =>
        if t != "" then
          let newYear := d.year + years
          if d.day ≤ daysInMonth newYear d.month then
            (.dt { d with year := newYear }, true, false)
          else (.dt (addDays d (365 * years)), true, false)
        else (fr, false, false)
      | none => (fr, false, false)
    | _, _ => (fr, false, false)
  else (fr, false, false)

/-- Index loop of DateStrategy.process, threading the format_applied
flag. -/
def loop : DRes → Bool → List String → DRes × Bool
  | fr, fa, [] => (fr, fa)
  | fr, fa, op :: rest =>
    let r := step fr op rest.head?
    let fa2 := fa || r.2.2
    if r.2.1 then
      match rest with
      | _ :: rest2 => loop r.1 fa2 rest2
      | [] => (r.1, fa2)
    else loop r.1 fa2 rest

/-- Embedding of DateStrategy.process (date_std.py) at a given locale:
empty input yields the empty string; non-datetime input is ISO-parsed,
falling back to the stringified input; after the pipeline a result that
is still a datetime with no formatting applied is emitted as the
date-only ISO string, otherwise the result is stringified. -/
def processLoc (_locale : String) (value : PVal) (ops : List String) : String :=
  if value == PVal.vnone || pyStrip (pyStr value) == "" then ""
  else
    let dtOpt : Option PyDateTime :=
      match value with
      | .vdate d => some d
      | _ => parseIsoDate (pyReplace1 (pyStr value) 'Z' "+00:00")
    match dtOpt with
    | none => pyStr value
    | some d =>
      let r := loop (.dt d) false ops
      match r.1, r.2 with
      | .dt d2, false => dateIso d2
      | .dt d2, true => pyStrDateTime d2
      | .txt s, _ => s

/-- DateStrategy.process at the default construction locale pt. -/
def process (value : PVal) (ops : List String) : String :=
  processLoc "pt" value ops

end DateStrategy

/-- Strategy identifiers of the process-wide registry (spec section 2:
String, Number, Date, Boolean, Logic, Mask, Image). -/
inductive StratKey where
  | sstring
  | snumber
  | sdate
  | sbool
  | slogic
  | smask
  | simage
deriving DecidableEq

/-- Modelled from the spec: the Formatter Registry type-key map of the
registry-style DataFormatter, which is not under src/ (engine.py calls
its methods _apply_strategy and get_jinja_filters, but the formatter.py
under src/ is an earlier pre-registry revision without them). Spec
sections 3 and 4.2: a fixed map from type key to strategy; int, float,
currency and percent alias to the Number strategy; logic and default
alias to the Logic strategy; unknown keys resolve to nothing and are
handled by the fail-open fallback. -/
def registryLookup (key : String) : Option StratKey :=
  if key = "string" then some .sstring
  else if key = "number" ∨ key = "int" ∨ key = "float" ∨ key = "currency" ∨ key = "percent" then
    some .snumber
  else if key = "date" ∨ key = "time" then some .sdate
  else if key = "bool" then some .sbool
  else if key = "logic" ∨ key = "default" then some .slogic
  else if key = "mask" then some .smask
  else if key = "image" then some .simage
  else none

/-- Dispatch of a resolved strategy to its embedded process function; the
string-returning strategies wrap their result back into a value. -/
def runStrategy (k : StratKey) (value : PVal) (ops : List String) : PVal :=
  match k with
  | .sstring => .vstr (StringStrategy.process value ops)
  | .snumber => .vstr (NumberStrategy.process value ops)
  | .sdate => .vstr (DateStrategy.process value ops)
  | .sbool => .vstr (BooleanStrategy.process value ops)
  | .slogic => LogicStrategy.process value ops
  | .smask => .vstr (MaskStrategy.process value ops)
  | .simage => ImageStrategy.process value ops

/-- Modelled from the spec: the registry dispatch _apply_strategy of the
registry-style DataFormatter (missing from src/; engine.py is its
caller). Spec section 4.2: unknown type key gives a passthrough string
conversion; a null or empty-string value routes to the empty string
except when the resolved strategy is Logic, which must observe emptiness;
strategy exceptions degrade to stringification (the embedded strategies
are total, so that path is vacuous). -/
def applyStrategy (key : String) (value : PVal) (ops : List String) : PVal :=
  match registryLookup key with
  | none => .vstr (pyStr value)
  | some k =>
    if (value == PVal.vnone || value == PVal.vstr "") && !(k == StratKey.slogic) then .vstr ""
    else runStrategy k value ops

/-- Error kind of a failed Python float(value) conversion: float of an
unparsable string raises ValueError, float of a non-numeric object such
as a datetime raises TypeError; formatter.py catches the two
differently. -/
inductive FloatErr where
  | valueError
  | typeError
deriving DecidableEq

/-- Models Python float(value) on an arbitrary value, as the int, float
and currency branches of DataFormatter.format_value call it: numbers and
bools convert directly, strings parse as plain decimal literals (the
shapes this program feeds it), and other objects raise TypeError. -/
def pyFloatOf : PVal → Except FloatErr PRat
  | .vint n => .ok (PRat.ofInt n)
  | .vfloat q => .ok q
  | .vbool b => .ok (PRat.ofInt (if b then 1 else 0))
  | .vstr s =>
    match pyParseFloat s with
    | some q => .ok q
    | none => .error .valueError
  | _ => .error .typeError

/-- Models the Python round(number, ndigits) builtin on exact rationals:
round half to even at the given decimal position (exact on the dyadic
values this program feeds it). -/
def pyRound (q : PRat) (p : Int) : PRat :=
  if 0 ≤ p then
    ⟨roundHalfEven (q.mulPow10 p.toNat), 10 ^ p.toNat⟩
  else
    ⟨roundHalfEven (q.divNat (10 ^ (-p).toNat)) * (10 : Int) ^ (-p).toNat, 1⟩

/-- The dd/mm/yyyy rendering of the default strftime pattern in the date
branch of DataFormatter.format_value. -/
def ddmmyyyy (d : PyDateTime) : String :=
  two d.day ++ "/" ++ two d.month ++ "/" ++ padZeros (toString d.year.natAbs) 4

/-- Protocol dictionary produced by DataFormatter.parse_protocol
(formatter.py, lines 21-39): a type key, an optional format token and an
optional options token. The blank-input return omits the options key in
the source; it is read back only through dict.get, so an absent key and
none coincide. -/
structure Protocol where
  type : String
  format : Option String
  options : Option String
deriving DecidableEq

namespace DataFormatter

/-- Embedding of DataFormatter.parse_protocol (formatter.py, lines
21-39): blank or absent input returns the string type with no format;
otherwise split on semicolons, the first segment lower-cased and
stripped is the type, and the second and third segments, stripped, are
the format and options; empty segments are kept and segments beyond the
third are discarded. -/
def parse_protocol (ps : Option String) : Protocol :=
  match ps with
  | none => ⟨"string", none, none⟩
  | some s =>
    if s = "" ∨ pyStrip s = "" then ⟨"string", none, none⟩
    else
      let parts := pySplit ';' s
      { type := pyStrip (pyLower (parts.headD ""))
        format := (parts[1]?).map pyStrip
        options := (parts[2]?).map pyStrip }

/-- Embedding of DataFormatter.format_value (formatter.py, lines 41-165)
at a given locale. A None value returns the empty string before any type
dispatch. The string, int, float, currency, date, mask and image
branches follow the source; babel, strftime and the format-spec builtin
are the abstract external models used throughout this file, so the only
exceptions the embedded branches can raise are the float(value)
conversion errors, threaded explicitly: ValueError is handled inside the
int, float and currency branches as in the source, and TypeError falls
through to the outer handler, which degrades to the stringified
value. -/
def formatValueLoc (locale : String) (value : PVal) (protocol : Protocol) : PVal :=
  if value == PVal.vnone then PVal.vstr ""
  else
    let dtype := protocol.type
    let fmt := protocol.format
    if dtype = "string" then
      let text := pyStr value
      if fmt = some "upper" then .vstr (pyUpper text)
      else if fmt = some "lower" then .vstr (pyLower text)
      else if fmt = some "title" then .vstr (pyTitle text)
      else .vstr text
    else if dtype = "int" then
      match pyFloatOf value with
      | .error .valueError => value
      | .error .typeError => .vstr (pyStr value)
      | .ok q =>
        let num := pyIntTrunc q
        match fmt with
        | some f =>
          if f ≠ "" then .vstr (NumberStrategy.pyFormatSpec (toString num) f)
          else .vint num
        | none => .vint num
    else if dtype = "float" then
      match pyFloatOf value with
      | .error .valueError => value
      | .error .typeError => .vstr (pyStr value)
      | .ok q =>
        match fmt with
        | some f =>
          if f = "" then .vfloat q
          else if f = "." then .vstr (pyReplace1 (formatFixed q 2) ',' ".")
          else if f = "," then .vstr (pyReplace1 (formatFixed q 2) '.' ",")
          else
            match pyParseInt f with
            | some p => .vfloat (pyRound q p)
            | none => .vfloat q
        | none => .vfloat q
    else if dtype = "currency" then
      match pyFloatOf value with
      | .ok q =>
        let code := match fmt with
          | some f => if f = "" then "BRL" else f
          | none => "BRL"
        .vstr (NumberStrategy.babelCurrency q code locale)
      | .error _ => value
    else if dtype = "date" then
      match value with
      | .vdate d =>
        if fmt = some "iso" then .vstr (isoDateTime d)
        else if fmt = some "long" then .vstr (DateStrategy.babelDate d "long" locale)
        else
          match fmt with
          | some f =>
            if f ≠ "" then .vstr (DateStrategy.pyStrftime d f) else .vstr (ddmmyyyy d)
          | none => .vstr (ddmmyyyy d)
      | _ => .vstr (pyStr value)
    else if dtype = "mask" then
      match fmt with
      | some f =>
        if f = "" then .vstr (pyStr value)
        else .vstr (MaskStrategy.applyGenericMask (pyStr value) f)
      | none => .vstr (pyStr value)
    else if dtype = "image" then
      .vimageRaw (pyStr value) fmt protocol.options
    else .vstr (pyStr value)

/-- DataFormatter.format_value at the default construction locale
pt_BR. -/
def format_value (value : PVal) (protocol : Protocol) : PVal :=
  formatValueLoc "pt_BR" value protocol

end DataFormatter

namespace DocumentEngine

/-- Argument parsing of DocumentEngine._parse_and_replace_pptx_text
(engine.py, lines 169-175): an empty raw-argument string gives no
arguments; otherwise split on commas and strip whitespace, then single
quotes, then double quotes, from both ends of each piece. -/
def parseFilterArgs (argsRaw : String) : List String :=
  if argsRaw = "" then []
  else (pySplit ',' argsRaw).map fun p =>
    (⟨stripCharBoth dq (stripCharBoth sq (stripChars p.data))⟩ : String)

/-- Filter-name map of DocumentEngine._parse_and_replace_pptx_text
(engine.py, lines 179-187). -/
def strategyMap : List (String × String) :=
  [("format_string", "string"), ("format_number", "number"), ("format_currency", "number"),
   ("format_date", "date"), ("format_bool", "bool"), ("format_mask", "mask"),
   ("format_logic", "logic")]

/-- Filter-clause parsing step of
DocumentEngine._parse_and_replace_pptx_text (engine.py, lines 159-167):
strip whitespace and the leading pipe, then, when the clause contains an
opening parenthesis and ends with a closing one, split at the first
opening parenthesis into the filter name and the raw argument text with
the trailing parenthesis removed; otherwise the whole clause is the name
and there is no argument text. -/
def parseFilterClause (fp : String) : String × String :=
  let content := pyStrip ⟨lstripChar '|' (pyStrip fp).data⟩
  if ('(' ∈ content.data) ∧ content.data.getLast? = some ')' then
    match splitFirstAt '(' content.data with
    | some (n, a) => ((⟨n⟩ : String), (⟨a.dropLast⟩ : String))
    | none => (content, "")
  else (content, "")

/-- Filter-name dispatch of DocumentEngine._parse_and_replace_pptx_text
(engine.py, lines 177-206): look the name up in the filter map, with the
format_currency and format_int special cases routing to the number
strategy with their synthetic leading op prepended to the arguments, then
dispatch through the registry and stringify; an unknown name degrades to
the stringified raw value. -/
def dispatchFilter (fname : String) (args : List String) (value : PVal) : String :=
  let skfa : Option String × List String :=
    if fname = "format_currency" then (some "number", "currency" :: args)
    else if fname = "format_int" then (some "number", "int" :: args)
    else (strategyMap.lookup fname, args)
  match skfa.1 with
  | some k => pyStr (applyStrategy k value skfa.2)
  | none => pyStr value

/-- Per-tag resolution of DocumentEngine._parse_and_replace_pptx_text
(engine.py, lines 146-210), given the two regex capture groups of a
matched tag (variable name, and optional filter clause including the
pipe) and the row context: resolve the raw value (empty string default);
an absent or empty filter clause substitutes the stringified raw value,
otherwise the clause is parsed and dispatched as above. -/
def replaceMatch (varName : String) (filterPart : Option String)
    (ctx : String → Option PVal) : String :=
  let value := (ctx varName).getD (.vstr "")
  match filterPart with
  | none => pyStr value
  | some fp =>
    if fp = "" then pyStr value
    else
      let fa := parseFilterClause fp
      dispatchFilter fa.1 (parseFilterArgs fa.2) value

end DocumentEngine

/-- Per-template entry of the validation report (validator.py, lines
156-163). -/
structure TemplateReport where
  template : String
  status : String
  missing_vars : Finset String
  matched_vars : Finset String
deriving DecidableEq

/-- Validation report of TemplateValidator.compare (validator.py, line
165). -/
structure ValidationResult where
  overall_valid : Bool
  details : List TemplateReport
deriving DecidableEq

namespace TemplateValidator

/-- Header normalization of TemplateValidator.compare (validator.py, line
135): the available-variable set is the set of stripped header names. -/
def availableVars (excelHeaders : List String) : Finset String :=
  (excelHeaders.map pyStrip).toFinset

/-- Loop body of TemplateValidator.compare (validator.py, lines 139-163),
threading the all_valid flag exactly as the source mutates it: a template
with a nonempty missing set gets status Missing Data and clears the flag.
The per-template required-variable sets are the results of the regex
extraction over the template files (extract_tags_from_docx / pptx), which
is file I/O at the boundary of the embedded core; compare receives them
directly as finite sets of names. -/
def compareLoop (avail : Finset String) :
    List (String × Finset String) → Bool → List TemplateReport × Bool
  | [], acc => ([], acc)
  | t :: rest, acc =>
    let missing := t.2 \ avail
    let status := if missing = ∅ then "OK" else "Missing Data"
    let acc2 := if missing = ∅ then acc else false
    let r := compareLoop avail rest acc2
    ({ template := t.1, status := status, missing_vars := missing,
       matched_vars := t.2 ∩ avail } :: r.1, r.2)

/-- Embedding of TemplateValidator.compare (validator.py, lines
128-165). -/
def compare (excelHeaders : List String)
    (templatesMap : List (String × Finset String)) : ValidationResult :=
  let r := compareLoop (availableVars excelHeaders) templatesMap true
  { overall_valid := r.2, details := r.1 }

end TemplateValidator

/- Helper lemmas shared by the claim theorems. -/

theorem pyReplaceChar_nil_eq_filter (c : Char) (l : List Char) :
    pyReplaceChar c [] l = l.filter (· ≠ c) := by
  induction l with
  | nil => rfl
  | cons a rest ih =>
    by_cases h : a = c <;> simp [pyReplaceChar, h, List.filter] at ih ⊢ <;> simpa [h] using ih

theorem pyReplaceChar_single_eq_map (c d : Char) (l : List Char) :
    pyReplaceChar c [d] l = l.map (fun x => if x = c then d else x) := by
  induction l with
  | nil => rfl
  | cons a rest ih =>
    by_cases h : a = c <;> simp [pyReplaceChar, h] at ih ⊢ <;> simpa [h] using ih

theorem dropWhile_cons_of_neg {p : Char → Bool} {a : Char} (l : List Char)
    (h : p a = false) : (a :: l).dropWhile p = a :: l := by
  simp [List.dropWhile, h]

theorem stripChars_sandwich (a b : Char) (mid : List Char)
    (ha : isSpace a = false) (hb : isSpace b = false) :
    stripChars (a :: (mid ++ [b])) = a :: (mid ++ [b]) := by
  unfold stripChars
  rw [dropWhile_cons_of_neg _ ha]
  have hrev : (a :: (mid ++ [b])).reverse = b :: (mid.reverse ++ [a]) := by
    simp
  rw [hrev, dropWhile_cons_of_neg _ hb]
  simp

theorem splitFirstAt_append_of_not_mem (c : Char) (l1 l2 : List Char) (h : c ∉ l1) :
    splitFirstAt c (l1 ++ c :: l2) = some (l1, l2) := by
  induction l1 with
  | nil => simp [splitFirstAt]
  | cons a rest ih =>
    have ha : a ≠ c := fun hac => h (hac ▸ List.mem_cons_self a rest)
    have hr : c ∉ rest := fun hc => h (List.mem_cons_of_mem a hc)
    simp [splitFirstAt, ha, ih hr]

theorem applyStrategy_number_eq_process (v : PVal) (ops : List String) :
    pyStr (applyStrategy "number" v ops) = NumberStrategy.process v ops := by
  cases v with
  | vnone => rfl
  | vstr s =>
    by_cases h : s = ""
    · subst h; rfl
    · have hbeq : (PVal.vstr s == PVal.vstr "") = false := by
        simp [BEq.beq, h]
      simp [applyStrategy, registryLookup, runStrategy, hbeq, pyStr]
  | vbool b => cases b <;> rfl
  | vint n => rfl
  | vfloat q => rfl
  | vdate d => rfl
  | vimage f w h => rfl
  | vimageRaw f w h => rfl

theorem string_mk_data (l : List Char) : (String.mk l).data = l := rfl

theorem getLast_append_singleton (l : List Char) (c : Char) :
    (l ++ [c]).getLast? = some c := by simp

theorem stripChars_cons_space (l : List Char) : stripChars (' ' :: l) = stripChars l := by
  unfold stripChars
  rw [List.dropWhile_cons, if_pos (by decide)]

theorem parseFilterClause_call (c0 : Char) (cs al : List Char)
    (hc0s : isSpace c0 = false) (hnp : '(' ∉ c0 :: cs) :
    DocumentEngine.parseFilterClause
        ("| " ++ String.mk (c0 :: cs) ++ "(" ++ String.mk al ++ ")")
      = (String.mk (c0 :: cs), String.mk al) := by
  have hfp : ("| " ++ String.mk (c0 :: cs) ++ "(" ++ String.mk al ++ ")").data
      = '|' :: ' ' :: c0 :: (cs ++ ('(' :: (al ++ [')']))) := by
    simp [String.data]
  have hstrip1 : stripChars ('|' :: ' ' :: c0 :: (cs ++ ('(' :: (al ++ [')']))))
      = '|' :: ' ' :: c0 :: (cs ++ ('(' :: (al ++ [')']))) := by
    have h := stripChars_sandwich '|' ')' (' ' :: c0 :: (cs ++ ('(' :: al)))
      (by decide) (by decide)
    simpa using h
  have hls : lstripChar '|' ('|' :: ' ' :: c0 :: (cs ++ ('(' :: (al ++ [')']))))
      = ' ' :: c0 :: (cs ++ ('(' :: (al ++ [')']))) := by
    simp [lstripChar, List.dropWhile]
  have hstrip2 : stripChars (c0 :: (cs ++ ('(' :: (al ++ [')']))))
      = c0 :: (cs ++ ('(' :: (al ++ [')']))) := by
    have h := stripChars_sandwich c0 ')' (cs ++ ('(' :: al)) hc0s (by decide)
    simpa using h
  have hcontent : pyStrip ⟨lstripChar '|'
      (pyStrip ("| " ++ String.mk (c0 :: cs) ++ "(" ++ String.mk al ++ ")")).data⟩
      = String.mk ((c0 :: cs) ++ ('(' :: (al ++ [')']))) := by
    simp only [pyStrip, string_mk_data, hfp, hstrip1, hls, stripChars_cons_space, hstrip2]
    apply congrArg
    simp
  have hmem : '(' ∈ (c0 :: cs) ++ ('(' :: (al ++ [')'])) :=
    List.mem_append_right _ (List.mem_cons_self _ _)
  have hlast : ((c0 :: cs) ++ ('(' :: (al ++ [')']))).getLast? = some ')' := by
    rw [show (c0 :: cs) ++ ('(' :: (al ++ [')'])) = ((c0 :: cs) ++ ('(' :: al)) ++ [')']
      by simp]
    exact getLast_append_singleton _ _
  have hdl : (al ++ [')']).dropLast = al := by simp
  simp only [DocumentEngine.parseFilterClause, hcontent, string_mk_data]
  rw [if_pos (And.intro hmem hlast),
    splitFirstAt_append_of_not_mem '(' (c0 :: cs) (al ++ [')']) hnp]
  show ((⟨c0 :: cs⟩ : String), (⟨(al ++ [')']).dropLast⟩ : String))
      = ((⟨c0 :: cs⟩ : String), (⟨al⟩ : String))
  rw [hdl]

theorem dispatchFilter_currency (args : List String) (v : PVal) :
    DocumentEngine.dispatchFilter "format_currency" args v
      = NumberStrategy.process v ("currency" :: args) := by
  have h : DocumentEngine.dispatchFilter "format_currency" args v
      = pyStr (applyStrategy "number" v ("currency" :: args)) := by
    simp [DocumentEngine.dispatchFilter]
  rw [h, applyStrategy_number_eq_process]

theorem dispatchFilter_int (args : List String) (v : PVal) :
    DocumentEngine.dispatchFilter "format_int" args v
      = NumberStrategy.process v ("int" :: args) := by
  have hcond : ¬("format_int" = "format_currency") := by decide
  have h : DocumentEngine.dispatchFilter "format_int" args v
      = pyStr (applyStrategy "number" v ("int" :: args)) := by
    simp [DocumentEngine.dispatchFilter, hcond]
  rw [h, applyStrategy_number_eq_process]

theorem compareLoop_fst (avail : Finset String)
    (l : List (String × Finset String)) (acc : Bool) :
    (TemplateValidator.compareLoop avail l acc).1 =
      l.map (fun t =>
        { template := t.1
          status := if t.2 \ avail = ∅ then "OK" else "Missing Data"
          missing_vars := t.2 \ avail
          matched_vars := t.2 ∩ avail }) := by
  induction l generalizing acc with
  | nil => rfl
  | cons t rest ih => simp [TemplateValidator.compareLoop, ih]

theorem compareLoop_snd (avail : Finset String)
    (l : List (String × Finset String)) (acc : Bool) :
    (TemplateValidator.compareLoop avail l acc).2 =
      (acc && l.all (fun t => t.2 \ avail = ∅)) := by
  induction l generalizing acc with
  | nil => simp [TemplateValidator.compareLoop]
  | cons t rest ih =>
    by_cases hc : t.2 \ avail = ∅
    · have hd : decide (t.2 \ avail = ∅) = true := decide_eq_true hc
      simp only [TemplateValidator.compareLoop, if_pos hc, ih, List.all_cons, hd,
        Bool.true_and]
    · have hd : decide (t.2 \ avail = ∅) = false := decide_eq_false hc
      simp only [TemplateValidator.compareLoop, if_neg hc, ih, List.all_cons, hd,
        Bool.false_and, Bool.and_false]

/- Claim theorems. -/

/-- C1: code bug evidence. The DataFormatter.format_value in src
(formatter.py, lines 45-46) returns the empty string for a null value
before any type dispatch, for every protocol — including the logic and
default directive types, which per the claim (and spec section 4.2) must
receive the null so the Logic strategy can apply its default rule: on
the same directive the Logic strategy embedded from src would return the
default label, not the empty string. -/
theorem format_value_null_unconditional :
    (∀ p : Protocol, DataFormatter.format_value PVal.vnone p = PVal.vstr "") ∧
    DataFormatter.format_value PVal.vnone
        (DataFormatter.parse_protocol (some "logic;default;N/A")) = PVal.vstr "" ∧
    LogicStrategy.process PVal.vnone ["default", "N/A"] = PVal.vstr "N/A" :=
  ⟨fun _ => rfl, by decide, by decide⟩

/-- C2: code bug evidence. For every absent, empty or whitespace-only
directive string the DataFormatter.parse_protocol in src (formatter.py,
lines 31-32) returns the string type with no format and no op list, not
the claimed neutral default type with an empty op list. -/
theorem parse_protocol_blank_string_type (s : Option String)
    (h : s = none ∨ ∃ t, s = some t ∧ pyStrip t = "") :
    DataFormatter.parse_protocol s = ⟨"string", none, none⟩ ∧
    (DataFormatter.parse_protocol s).type ≠ "default" := by
  have h1 : DataFormatter.parse_protocol s = ⟨"string", none, none⟩ := by
    rcases h with h | ⟨t, hs, ht⟩
    · subst h; rfl
    · subst hs
      simp [DataFormatter.parse_protocol, ht]
  refine ⟨h1, ?_⟩
  rw [h1]
  decide

/-- Witness for C2 at a concrete whitespace-only directive string. -/
theorem parse_protocol_blank_string_type_witness :
    DataFormatter.parse_protocol (some "   ") = ⟨"string", none, none⟩ ∧
    (DataFormatter.parse_protocol (some "   ")).type ≠ "default" :=
  parse_protocol_blank_string_type (some "   ") (Or.inr ⟨"   ", rfl, by decide⟩)

/-- C3: code bug evidence. The claimed parse of logic;;10=A;extra (split
on semicolons, trim, drop empty segments, first remaining segment
lower-cased as the type, the rest as ops) leaves the segments logic,
10=A and extra; the DataFormatter.parse_protocol in src instead keeps
the empty second segment, stripped, as the format, keeps only the third
segment as options, discards the fourth segment, and builds no op list
at all; and on ;logic;x, whose first segment is empty, it takes that
empty segment as the type instead of the first remaining one. -/
theorem parse_protocol_no_ops_list :
    ((pySplit ';' "logic;;10=A;extra").map pyStrip).filter (· ≠ "")
      = ["logic", "10=A", "extra"] ∧
    DataFormatter.parse_protocol (some "logic;;10=A;extra")
      = ⟨"logic", some "", some "10=A"⟩ ∧
    DataFormatter.parse_protocol (some ";logic;x") = ⟨"", some "logic", some "x"⟩ :=
  ⟨by decide, by decide, by decide⟩

/-- C4: with ops 10=Approved, 20=Pending, default, Unknown, the Logic
strategy maps the non-empty unmatched value 99 to Unknown (the default
token stores its argument as the else candidate, returned only after the
scan ends without a key match) and maps the value 10 to Approved (the
first matching key=output token returns immediately). -/
theorem logic_default_else_resolution :
    LogicStrategy.process (PVal.vstr "99")
        ["10=Approved", "20=Pending", "default", "Unknown"] = PVal.vstr "Unknown" ∧
    LogicStrategy.process (PVal.vstr "10")
        ["10=Approved", "20=Pending", "default", "Unknown"] = PVal.vstr "Approved" :=
  ⟨by decide, by decide⟩

/-- C5 counterexample: at the concrete scenario of the claim (a template
requiring client_name and total against the available column client_name)
the report status string is Missing Data with a space, not the claimed
MissingData. -/
theorem compare_status_spelling_cex :
    (TemplateValidator.compare ["client_name"]
        [("template.docx", {"client_name", "total"})]).details.map TemplateReport.status
      = ["Missing Data"] ∧
    (TemplateValidator.compare ["client_name"]
        [("template.docx", {"client_name", "total"})]).details.map TemplateReport.status
      ≠ ["MissingData"] := by
  refine ⟨by decide, by decide⟩

/-- C5 (amended: the non-OK status string the code produces is Missing
Data, with a space): for every available column list and template map,
compare reports each template with missing variables equal to the
required set minus the trimmed available set, matched variables equal to
their intersection, status OK exactly when nothing is missing and Missing
Data otherwise, and overall validity exactly when every template is OK;
in particular the concrete scenario yields status Missing Data, missing
total, matched client_name, and overall invalid. -/
theorem compare_missing_and_overall :
    (∀ (headers : List String) (tmap : List (String × Finset String)),
      (TemplateValidator.compare headers tmap).details =
        tmap.map (fun t =>
          { template := t.1
            status :=
              if t.2 \ TemplateValidator.availableVars headers = ∅ then "OK"
              else "Missing Data"
            missing_vars := t.2 \ TemplateValidator.availableVars headers
            matched_vars := t.2 ∩ TemplateValidator.availableVars headers }) ∧
      ((TemplateValidator.compare headers tmap).overall_valid = true ↔
        ∀ e ∈ (TemplateValidator.compare headers tmap).details, e.status = "OK")) ∧
    TemplateValidator.compare ["client_name"] [("template.docx", {"client_name", "total"})] =
      { overall_valid := false
        details := [{ template := "template.docx", status := "Missing Data",
                      missing_vars := {"total"}, matched_vars := {"client_name"} }] } := by
  refine ⟨fun headers tmap => ⟨compareLoop_fst _ _ _, ?_⟩, by decide⟩
  have hdet : (TemplateValidator.compare headers tmap).details =
      tmap.map (fun t =>
        { template := t.1,
          status := if t.2 \ TemplateValidator.availableVars headers = ∅ then "OK"
            else "Missing Data",
          missing_vars := t.2 \ TemplateValidator.availableVars headers,
          matched_vars := t.2 ∩ TemplateValidator.availableVars headers }) :=
    compareLoop_fst _ _ _
  have hov : (TemplateValidator.compare headers tmap).overall_valid =
      (tmap.all (fun t => t.2 \ TemplateValidator.availableVars headers = ∅)) := by
    have := compareLoop_snd (TemplateValidator.availableVars headers) tmap true
    simpa [TemplateValidator.compare] using this
  rw [hov]
  constructor
  · intro hall e he
    rw [hdet] at he
    obtain ⟨t, ht, rfl⟩ := List.mem_map.mp he
    have hc := List.all_eq_true.mp hall t ht
    simp only [decide_eq_true_eq] at hc
    simp [hc]
  · intro hst
    rw [List.all_eq_true]
    intro t ht
    simp only [decide_eq_true_eq]
    by_contra hc
    have hmem := List.mem_map_of_mem (fun t =>
      ({ template := t.1,
         status := if t.2 \ TemplateValidator.availableVars headers = ∅ then "OK"
           else "Missing Data",
         missing_vars := t.2 \ TemplateValidator.availableVars headers,
         matched_vars := t.2 ∩ TemplateValidator.availableVars headers } : TemplateReport)) ht
    rw [← hdet] at hmem
    have hok := hst _ hmem
    simp only [if_neg hc] at hok
    exact absurd hok (by decide)

/-- C6: in the inline tag substitution engine, a tag whose filter name is
format_currency resolves by invoking the number strategy on the raw
context value of the tag variable (empty-string default) with a synthetic
leading currency op prepended to the parsed filter arguments, and a
format_int filter likewise prepends a leading int op; the per-tag
replacement text is that formatted result. -/
theorem engine_currency_filter_uses_number_strategy (ctx : String → Option PVal)
    (varName argsRaw : String) :
    DocumentEngine.replaceMatch varName
        (some ("| format_currency(" ++ argsRaw ++ ")")) ctx =
      NumberStrategy.process ((ctx varName).getD (PVal.vstr ""))
        ("currency" :: DocumentEngine.parseFilterArgs argsRaw) ∧
    DocumentEngine.replaceMatch varName
        (some ("| format_int(" ++ argsRaw ++ ")")) ctx =
      NumberStrategy.process ((ctx varName).getD (PVal.vstr ""))
        ("int" :: DocumentEngine.parseFilterArgs argsRaw) := by
  obtain ⟨al⟩ := argsRaw
  have hc2 : DocumentEngine.parseFilterClause ("| format_currency(" ++ String.mk al ++ ")")
      = ("format_currency", String.mk al) :=
    parseFilterClause_call 'f' ("ormat_currency".data) al (by decide) (by decide)
  have hi2 : DocumentEngine.parseFilterClause ("| format_int(" ++ String.mk al ++ ")")
      = ("format_int", String.mk al) :=
    parseFilterClause_call 'f' ("ormat_int".data) al (by decide) (by decide)
  have hne1 : ("| format_currency(" ++ String.mk al ++ ")") ≠ "" := by
    intro habs
    have h0 := congrArg String.data habs
    simp [String.data] at h0
  have hne2 : ("| format_int(" ++ String.mk al ++ ")") ≠ "" := by
    intro habs
    have h0 := congrArg String.data habs
    simp [String.data] at h0
  constructor
  · simp only [DocumentEngine.replaceMatch, if_neg hne1, hc2]
    exact dispatchFilter_currency _ _
  · simp only [DocumentEngine.replaceMatch, if_neg hne2, hi2]
    exact dispatchFilter_int _ _

/-- C7: when the input string holds both a comma and a point, the Number
strategy input normalization removes every copy of whichever separator
occurs first (the thousands separator) and the other becomes the decimal
point (a first comma leaves the point in place; a first point turns the
commas into points); and the concrete input 1.200,50 under the float
operation at precision 2 formats to 1200.50. -/
theorem number_separator_first_wins (s : String)
    (h1 : ',' ∈ s.data) (h2 : '.' ∈ s.data) :
    (s.data.indexOf ',' < s.data.indexOf '.' →
      NumberStrategy.normalizeSeparators s.data = s.data.filter (· ≠ ',')) ∧
    (¬ s.data.indexOf ',' < s.data.indexOf '.' →
      NumberStrategy.normalizeSeparators s.data =
        (s.data.filter (· ≠ '.')).map (fun c => if c = ',' then '.' else c)) ∧
    NumberStrategy.process (PVal.vstr "1.200,50") ["float", "2"] = "1200.50" := by
  have hn1 : ¬((',' ∈ s.data) ∧ ('.' ∉ s.data)) := fun hc => hc.2 h2
  refine ⟨?_, ?_, by decide⟩
  · intro hlt
    unfold NumberStrategy.normalizeSeparators
    rw [if_neg hn1, if_pos ⟨h1, h2⟩, if_pos hlt, pyReplaceChar_nil_eq_filter]
  · intro hge
    unfold NumberStrategy.normalizeSeparators
    rw [if_neg hn1, if_pos ⟨h1, h2⟩, if_neg hge, pyReplaceChar_nil_eq_filter,
      pyReplaceChar_single_eq_map]

/-- Witness for C7 at the concrete input 1.200,50, where the point occurs
first and is removed while the comma becomes the decimal point. -/
theorem number_separator_first_wins_witness :
    NumberStrategy.normalizeSeparators ("1.200,50".data) =
      (("1.200,50".data.filter (· ≠ '.')).map (fun c => if c = ',' then '.' else c)) ∧
    NumberStrategy.process (PVal.vstr "1.200,50") ["float", "2"] = "1200.50" :=
  ⟨(number_separator_first_wins "1.200,50" (by decide) (by decide)).2.1 (by decide),
   (number_separator_first_wins "1.200,50" (by decide) (by decide)).2.2⟩

/-- C8: the Date strategy on the leap day 2024-02-29 with add_years 1
yields 2025-02-28: February 2025 has no day 29, so the year replacement
falls back to adding 365 days, and with no formatting operation applied
the output is the date-only ISO form with no time component. -/
theorem date_add_years_leap_fallback :
    daysInMonth 2025 2 < 29 ∧
    addDays ⟨2024, 2, 29, 0, 0, 0⟩ 365 = ⟨2025, 2, 28, 0, 0, 0⟩ ∧
    DateStrategy.process (PVal.vdate ⟨2024, 2, 29, 0, 0, 0⟩) ["add_years", "1"] =
      "2025-02-28" :=
  ⟨by decide, by decide, by decide⟩

/-- C9: the credit_card mask is idempotent on already-masked input: the
value consisting of the mask prefix and the last four digits 1234 has
exactly four digits, so masking it again reproduces it unchanged. -/
theorem mask_credit_card_idempotent_on_masked :
    MaskStrategy.process (PVal.vstr "**** **** **** 1234") ["credit_card"] =
      "**** **** **** 1234" := by decide

/-- C10: for every input value, when the bool keyword is followed by
exactly one token, that lone token is consumed and discarded and the
Boolean strategy returns the plain string form of the normalized boolean,
never the custom label. -/
theorem bool_lone_label_discarded (value : PVal) (op t : String)
    (h : pyStrip (pyLower op) = "bool") :
    BooleanStrategy.process value [op, t] =
      (if BooleanStrategy.normalize value then "True" else "False") := by
  unfold BooleanStrategy.process BooleanStrategy.loop
  rw [h]
  simp [pyStr]

/-- Witness for C10 at a concrete truthy value and a lone label token,
with the keyword in mixed case. -/
theorem bool_lone_label_discarded_witness :
    BooleanStrategy.process (PVal.vstr "sim") ["BOOL ", "YesLabel"] = "True" :=
  (bool_lone_label_discarded (PVal.vstr "sim") "BOOL " "YesLabel" (by decide)).trans
    (by decide)

end LogicPaper
